import Mathlib

/-!
Verification development for the clinic-schedule scheduling engine
(`backend/app/services/solver_service.py`, `validation_service.py` and the
schedule/assignment/solver API routers).

The Python code is shallowly embedded: each relevant function is translated
into an executable Lean definition over structured data.  The CP-SAT model
built by `_build_model` is embedded as a Boolean satisfaction predicate over
a candidate solution (an assignment of values to the `x` cell variables and
the `e` event-placement variables); the auxiliary one-hot variables
`y[s,d,b,t]` are forced by the model to equal the indicator `x[s,d,b] = t`,
so they are represented by that indicator directly, and the auxiliary
`shortfall` / `excess` / `is_unassigned` objective variables (whose optimal
values are the corresponding `max(0, _)` expressions) are eliminated into
the objective terms they produce.

Identifiers (UUIDs) are represented by natural numbers, and dictionary /
JSON payloads by structures of `Option` fields mirroring the keys the code
reads (Python truthiness of a string or integer field is modelled
explicitly).  Dates are a year/month/day structure with the proleptic
Gregorian weekday function, matching `datetime.date.weekday`.
-/

/-- Canonical time-block order, `TIME_BLOCK_ORDER` in `solver_service.py`. -/
def TIME_BLOCK_ORDER : List String := ["am", "lunch", "pm", "15", "16", "17", "18plus"]

/-- Block duration table `BLOCK_DURATIONS`; the code reads it with
`BLOCK_DURATIONS.get(block, 1)`, so unknown blocks default to 1. -/
def blockDuration (b : String) : Nat :=
  if b = "am" then 3
  else if b = "lunch" then 1
  else if b = "pm" then 2
  else if b = "15" then 1
  else if b = "16" then 1
  else if b = "17" then 1
  else if b = "18plus" then 2
  else 1

/-- Start-hour to block map `START_HOUR_TO_BLOCK`. -/
def startHourToBlock (h : Int) : Option String :=
  if h = 9 then some "am"
  else if h = 12 then some "lunch"
  else if h = 13 then some "pm"
  else if h = 15 then some "15"
  else if h = 16 then some "16"
  else if h = 17 then some "17"
  else if h = 18 then some "18plus"
  else none

/-- Index of a block code in `TIME_BLOCK_ORDER` (`list.index`), as an Option:
the code always guards with `block in TIME_BLOCK_ORDER` before calling. -/
def blockIdx (b : String) : Option Nat :=
  TIME_BLOCK_ORDER.findIdx? (fun c => c = b)

/-- Calendar date, embedding Python `datetime.date`. -/
structure PDate where
  year : Nat
  month : Nat
  day : Nat
deriving DecidableEq, Repr

instance : Inhabited PDate := ⟨⟨1, 1, 1⟩⟩

/-- Gregorian leap-year test. -/
def isLeapYear (y : Nat) : Bool :=
  y % 4 = 0 && (y % 100 != 0 || y % 400 = 0)

/-- Days in a month of the proleptic Gregorian calendar. -/
def daysInMonth (y m : Nat) : Nat :=
  if m = 2 then (if isLeapYear y then 29 else 28)
  else if m = 4 || m = 6 || m = 9 || m = 11 then 30
  else 31

/-- Proleptic-Gregorian ordinal of a date (0001-01-01 has ordinal 1),
as used by `datetime.date.toordinal`. -/
def pdateOrdinal (d : PDate) : Nat :=
  let n := d.year - 1
  365 * n + n / 4 + n / 400 - n / 100
    + (((List.range (d.month - 1)).map (fun i => daysInMonth d.year (i + 1))).sum)
    + d.day

/-- Weekday with Monday = 0 .. Sunday = 6, matching `datetime.date.weekday()`. -/
def pweekday (d : PDate) : Nat :=
  (pdateOrdinal d + 6) % 7

example : pweekday ⟨2025, 5, 6⟩ = 1 := by decide
example : pweekday ⟨2025, 5, 10⟩ = 5 := by decide

/-!  Event spans (`_event_blocks_for_duration`). -/

/-- Loop body of `_event_blocks_for_duration`: walk the block order from
`bi` while `remaining > 0` and `bi < len(TIME_BLOCK_ORDER)`, consuming each
block's duration.  The fuel argument only bounds the recursion; seven steps
always suffice because `bi` increases towards the length of the order. -/
def eventBlocksGo : Nat → Int → Nat → List Nat
  | 0, _, _ => []
  | fuel + 1, remaining, bi =>
    if remaining > 0 && bi < TIME_BLOCK_ORDER.length then
      bi :: eventBlocksGo fuel (remaining - (blockDuration (TIME_BLOCK_ORDER.getD bi "") : Int)) (bi + 1)
    else []

/-- Embeds `_event_blocks_for_duration(start_bi, duration_hours)`. -/
def eventBlocksForDuration (startBi : Nat) (durationHours : Int) : List Nat :=
  eventBlocksGo TIME_BLOCK_ORDER.length durationHours startBi

/-- Modelled from the spec: total duration of the blocks at offsets
`0 .. i-1` from start block `b` in the canonical order. -/
def cumDurBefore (b i : Nat) : Nat :=
  ((List.range i).map (fun j => blockDuration (TIME_BLOCK_ORDER.getD (b + j) ""))).sum

/-- Modelled from the spec (§4.3): the span obtained by walking the canonical
block order from `b` and consuming block durations until `d` is exhausted —
block `b + i` is covered exactly when the durations consumed before reaching
it still leave a positive remainder, i.e. when `cumDurBefore b i < d`. -/
def spanByWalk (b : Nat) (d : Int) : List Nat :=
  ((List.range (TIME_BLOCK_ORDER.length - b)).filter
    (fun i => (cumDurBefore b i : Int) < d)).map (fun i => b + i)

theorem cumDurBefore_succ (b i : Nat) :
    cumDurBefore b (i + 1)
      = blockDuration (TIME_BLOCK_ORDER.getD b "") + cumDurBefore (b + 1) i := by
  unfold cumDurBefore
  rw [List.range_succ_eq_map, List.map_cons, List.map_map, List.sum_cons]
  have hmap : (List.map ((fun j => blockDuration (TIME_BLOCK_ORDER.getD (b + j) "")) ∘ Nat.succ)
        (List.range i))
      = (List.map (fun j => blockDuration (TIME_BLOCK_ORDER.getD (b + 1 + j) ""))
        (List.range i)) := by
    apply List.map_congr_left
    intro j _
    simp only [Function.comp_apply]
    congr 2
    omega
  rw [hmap]
  simp

theorem spanByWalk_stop (b : Nat) (d : Int) (h : ¬(d > 0 ∧ b < TIME_BLOCK_ORDER.length)) :
    spanByWalk b d = [] := by
  unfold spanByWalk
  rcases not_and_or.mp h with h1 | h2
  · have hd : d ≤ 0 := by omega
    have : ∀ i ∈ List.range (TIME_BLOCK_ORDER.length - b),
        ¬((fun i => decide ((cumDurBefore b i : Int) < d)) i = true) := by
      intro i _
      simp only [decide_eq_true_eq]
      have : (0 : Int) ≤ (cumDurBefore b i : Int) := Int.ofNat_nonneg _
      omega
    rw [List.filter_eq_nil_iff.mpr this]
    rfl
  · have : TIME_BLOCK_ORDER.length - b = 0 := by omega
    rw [this]
    rfl

theorem spanByWalk_step (b : Nat) (d : Int)
    (hd : d > 0) (hb : b < TIME_BLOCK_ORDER.length) :
    spanByWalk b d
      = b :: spanByWalk (b + 1) (d - (blockDuration (TIME_BLOCK_ORDER.getD b "") : Int)) := by
  unfold spanByWalk
  have hlen : TIME_BLOCK_ORDER.length - b = (TIME_BLOCK_ORDER.length - (b + 1)) + 1 := by omega
  rw [hlen, List.range_succ_eq_map]
  have h0 : (fun i => decide ((cumDurBefore b i : Int) < d)) 0 = true := by
    simp only [decide_eq_true_eq]
    simp only [cumDurBefore, List.range_zero, List.map_nil, List.sum_nil, Nat.cast_zero]
    omega
  rw [List.filter_cons_of_pos (p := fun i => decide ((cumDurBefore b i : Int) < d)) h0,
    List.map_cons]
  have htail : List.map (fun i => b + i)
        (List.filter (fun i => decide ((cumDurBefore b i : Int) < d))
          (List.map Nat.succ (List.range (TIME_BLOCK_ORDER.length - (b + 1)))))
      = List.map (fun i => b + 1 + i)
        (List.filter (fun i => decide ((cumDurBefore (b + 1) i : Int)
            < d - (blockDuration (TIME_BLOCK_ORDER.getD b "") : Int)))
          (List.range (TIME_BLOCK_ORDER.length - (b + 1)))) := by
    rw [List.filter_map, List.map_map]
    have hfil : (List.filter ((fun i => decide ((cumDurBefore b i : Int) < d)) ∘ Nat.succ)
          (List.range (TIME_BLOCK_ORDER.length - (b + 1))))
        = (List.filter (fun i => decide ((cumDurBefore (b + 1) i : Int)
            < d - (blockDuration (TIME_BLOCK_ORDER.getD b "") : Int)))
          (List.range (TIME_BLOCK_ORDER.length - (b + 1)))) := by
      apply List.filter_congr
      intro i _
      simp only [Function.comp_apply, decide_eq_decide]
      rw [show Nat.succ i = i + 1 from rfl, cumDurBefore_succ]
      push_cast
      omega
    rw [hfil]
    apply List.map_congr_left
    intro i _
    simp only [Function.comp_apply]
    omega
  rw [htail]
  simp

theorem eventBlocksGo_eq_spanByWalk (fuel : Nat) :
    ∀ b d, TIME_BLOCK_ORDER.length - b ≤ fuel →
      eventBlocksGo fuel d b = spanByWalk b d := by
  induction fuel with
  | zero =>
    intro b d h
    have : ¬(d > 0 ∧ b < TIME_BLOCK_ORDER.length) := by
      intro ⟨_, hb⟩
      omega
    rw [spanByWalk_stop b d this]
    rfl
  | succ fuel ih =>
    intro b d h
    unfold eventBlocksGo
    by_cases hc : d > 0 ∧ b < TIME_BLOCK_ORDER.length
    · obtain ⟨hd, hb⟩ := hc
      have hcond : (decide (d > 0) && decide (b < TIME_BLOCK_ORDER.length)) = true := by
        simp [hd, hb]
      rw [if_pos hcond]
      rw [ih (b + 1) _ (by omega)]
      rw [spanByWalk_step b d hd hb]
    · have hcond : ¬((decide (d > 0) && decide (b < TIME_BLOCK_ORDER.length)) = true) := by
        simpa [Decidable.not_and_iff_or_not] using hc
      rw [if_neg hcond, spanByWalk_stop b d hc]

/-- C9: for every start block index `b` in the 7-block order and every
`duration_hours d ≥ 1`, `_event_blocks_for_duration` returns exactly the
consecutive block indices obtained by walking the canonical block order from
`b` and consuming each block's duration until `d` is exhausted (block `b+i`
is covered while the durations before it total less than `d`); the span may
include the lunch block. -/
theorem claim_C9_span_walk (b : Nat) (d : Int)
    (hb : b < TIME_BLOCK_ORDER.length) (hd : 1 ≤ d) :
    eventBlocksForDuration b d = spanByWalk b d :=
  eventBlocksGo_eq_spanByWalk TIME_BLOCK_ORDER.length b d (Nat.sub_le _ _)

/-- C9 witness: a 4-hour event starting at `am` (block 0) spans `[am, lunch]`
— computed by the source function, equal to the spec walk, and crossing the
lunch block (index 1). -/
theorem claim_C9_span_walk_witness :
    eventBlocksForDuration 0 4 = spanByWalk 0 4
      ∧ eventBlocksForDuration 0 4 = [0, 1] ∧ (1 : Nat) ∈ eventBlocksForDuration 0 4 :=
  ⟨claim_C9_span_walk 0 4 (by decide) (by decide), by decide, by decide⟩

/-!  Entity embeddings: the fields of the ORM models that the solver and
validator read.  UUID primary keys are represented as `Nat`. -/

/-- Embeds `Staff` (active staff loaded by `_load_solver_data`). -/
structure StaffE where
  id : Nat
  name : String
  employment_type : String
  can_drive : Bool
  can_bicycle : Bool
deriving DecidableEq, Repr

instance : Inhabited StaffE := ⟨⟨0, "", "", false, false⟩⟩

/-- Embeds `TaskType`. -/
structure TaskTypeE where
  code : String
  display_name : String
  default_blocks : List String
  required_skills : List String
  required_resources : List String
  min_staff : Nat
  max_staff : Option Nat
  location_type : String
  is_active : Bool
deriving DecidableEq, Repr

instance : Inhabited TaskTypeE := ⟨⟨"", "", [], [], [], 1, none, "in_clinic", true⟩⟩

/-- Embeds `Resource` (field `type` is called `rtype` because `type` is reserved). -/
structure ResourceE where
  rtype : String
  name : String
  capacity : Nat
  is_active : Bool
deriving DecidableEq, Repr

/-- Embeds `ScheduleAssignment` row.  The surrogate primary key is `rid`. -/
structure Row where
  rid : Nat
  schedule_id : Nat
  staff_id : Nat
  date : PDate
  time_block : String
  task_type_code : Option String
  display_text : Option String
  status_color : Option String
  is_locked : Bool
  source : String
  event_id : Option Nat
deriving DecidableEq, Repr

/-- Raw `{date, start}` slot of a `fixed` / `candidates` time constraint.
The `date` string of the JSON payload is represented quotiented by
`date.fromisoformat`: `none` means the key is absent or falsy, `some none`
means present but unparseable (ValueError), `some (some d)` parses to `d`. -/
structure RawSlot where
  date : Option (Option PDate)
  start : Option Int
deriving DecidableEq, Repr

/-- The `time_constraint_type` / `time_constraint_data` payload of an event.
For `range`, `month` is the parsed month number (`none` when the key is
absent, falsy or unparseable — in all those cases the code applies no month
filter). -/
inductive TimeConstraintE where
  | fixed (slot : RawSlot)
  | range (weekdays : Option (List Nat)) (period : Option String) (month : Option Nat)
  | candidates (slots : List RawSlot)
  | unknown
deriving DecidableEq, Repr

/-- Embeds `Event` (events with status `unassigned`/`assigned` bound to the
schedule, as loaded by `_load_solver_data`). -/
structure EventE where
  id : Nat
  type_code : Option String
  duration_hours : Int
  time_constraint : TimeConstraintE
  required_skills : List String
  required_resources : List String
  priority : String
  status : String
  schedule_id : Option Nat
deriving DecidableEq, Repr

/-- Embeds `rule.body` dict: one bag of optional fields covering every template
type, mirroring `body.get(...)` reads with their defaults. -/
structure RuleBody where
  task_type_code : Option String := none
  event_code : Option String := none
  min_staff : Option Nat := none
  max_staff : Option Nat := none
  staff_name : Option String := none
  blocked_weekdays : List Nat := []
  blocked_blocks : List String := []
  preferred_staff_name : Option String := none
  weekday : Option Nat := none
  weekdays : List Nat := []
  time_blocks : List String := []
  date : Option PDate := none
  required_staff_names : List String := []
  time_block : Option String := none
deriving DecidableEq, Repr

/-- Embeds `Rule` (active rules). -/
structure RuleE where
  rid : Nat
  template_type : String
  hard_or_soft : String
  weight : Nat
  natural_text : String
  body : RuleBody
deriving DecidableEq, Repr

/-- Python truthiness of an optional string (`if s:`). -/
def truthyStr (o : Option String) : Bool :=
  match o with
  | some s => !(s == "")
  | none => false

/-- Python truthiness of an optional integer (`if n:`). -/
def truthyNat (o : Option Nat) : Bool :=
  match o with
  | some n => n != 0
  | none => false

/-- Python `a or b` on two optional strings. -/
def strOr (a b : Option String) : Option String :=
  if truthyStr a then a else b

/-- Last index at which a position below `n` satisfies `p` — the index a
Python dict comprehension `{key(i): i for i in range(n)}` stores for a
repeated key (the later entry wins). -/
def lastIdxWhere (n : Nat) (p : Nat → Bool) : Option Nat :=
  (List.range n).foldl (fun acc i => if p i then some i else acc) none

/-- The `date_index` dict of `_build_model` / `_expand_event_slots`. -/
def dateIdx (dates : List PDate) (d : PDate) : Option Nat :=
  lastIdxWhere dates.length (fun i => dates.getD i default == d)

/-- The `staff_index` dict of `_build_model`. -/
def staffIdx (staffs : List StaffE) (sid : Nat) : Option Nat :=
  lastIdxWhere staffs.length (fun i => (staffs.getD i default).id == sid)

/-- Expansion of one `{date, start}` slot (shared by the `fixed` and
`candidates` branches of `_expand_event_slots`). -/
def expandFixedSlot (s : RawSlot) (dates : List PDate) : List (Nat × Nat) :=
  match s.date, s.start with
  | some parsed, some h =>
    match parsed with
    | none => []
    | some d =>
      let dio := dateIdx dates d
      let bio := (startHourToBlock h).bind
        (fun blk => if TIME_BLOCK_ORDER.contains blk then blockIdx blk else none)
      match dio, bio with
      | some di, some bi => [(di, bi)]
      | _, _ => []
  | _, _ => []

/-- Embeds `_expand_event_slots(event, dates, date_index)`: candidate
`(date_idx, block_idx)` start slots for an event. -/
def expandEventSlots (e : EventE) (dates : List PDate) : List (Nat × Nat) :=
  match e.time_constraint with
  | .fixed s => expandFixedSlot s dates
  | .range wopt period monthOpt =>
    let wds := wopt.getD [0, 1, 2, 3, 4]
    (List.range dates.length).flatMap (fun i =>
      let d := dates.getD i default
      if (match monthOpt with | some m => d.month == m | none => true) = false then []
      else if !(wds.contains (pweekday d)) then []
      else
        let cbs := if period == some "am" then ["am"]
          else if period == some "pm" then ["pm", "15", "16"]
          else ["am", "pm", "15", "16", "17"]
        cbs.filterMap (fun blk =>
          (blockIdx blk).map (fun bi => ((dateIdx dates d).getD 0, bi))))
  | .candidates slots => slots.flatMap (fun s => expandFixedSlot s dates)
  | .unknown => []

/-- The `data` dict produced by `_load_solver_data` and consumed by
`_build_model`: active staff, their skill sets, active task types (as the
insertion-ordered dict association list), locked assignments of the
schedule, active rules, the schedule's pending events, active resources and
the dates of the month. -/
structure SolverData where
  staffs : List StaffE
  staffSkills : List (Nat × List String)
  taskTypes : List (String × TaskTypeE)
  locked : List Row
  rules : List RuleE
  events : List EventE
  resources : List ResourceE
  dates : List PDate

/-- Embeds `staff_skills.get(str(staff.id), set())`. -/
def skillsOf (data : SolverData) (sid : Nat) : List String :=
  ((data.staffSkills.find? (fun p => p.1 == sid)).map Prod.snd).getD []

/-- Embeds `tt_codes = list(task_types.keys())`. -/
def ttCodes (data : SolverData) : List String :=
  data.taskTypes.map Prod.fst

/-- Embeds `tt_index[code]` (1-based; 0 means unassigned). -/
def ttIndexOf (data : SolverData) (code : String) : Option Nat :=
  ((ttCodes data).findIdx? (fun c => c == code)).map (fun i => i + 1)

/-- Embeds `task_types.get(code)`. -/
def ttLookup (data : SolverData) (code : String) : Option TaskTypeE :=
  (data.taskTypes.find? (fun p => p.1 == code)).map Prod.snd

/-- Embeds `num_tasks`. -/
def numTasks (data : SolverData) : Nat :=
  data.taskTypes.length

/-- A candidate solution of the CP model: values of the cell variables
`x[s,d,b]` and of the boolean event-placement variables `e[eid,s,d,b]`
(keyed by event id, as the `ev` dict is). -/
structure CpSolution where
  x : Nat → Nat → Nat → Nat
  evSel : Nat → Nat → Nat → Nat → Bool

/-- Resolution of a locked assignment to a cell `(si, di, bi)`, mirroring
the `staff_index.get` / `date_index.get` / `TIME_BLOCK_ORDER.index` lookups
of constraint 1 of `_build_model`. -/
def resolveLock (data : SolverData) (la : Row) : Option (Nat × Nat × Nat) :=
  match staffIdx data.staffs la.staff_id, dateIdx data.dates la.date,
      (if TIME_BLOCK_ORDER.contains la.time_block then blockIdx la.time_block else none) with
  | some si, some di, some bi => some (si, di, bi)
  | _, _, _ => none

/-- The task index a resolvable locked assignment pins its cell to:
a known `task_type_code` wins, otherwise `status_color = "off"` pins to the
`off` task when one exists; `none` when the lock imposes no constraint. -/
def lockValue (data : SolverData) (la : Row) : Option Nat :=
  if truthyStr la.task_type_code && (ttIndexOf data (la.task_type_code.getD "")).isSome then
    ttIndexOf data (la.task_type_code.getD "")
  else if la.status_color == some "off" then ttIndexOf data "off"
  else none

/-- The `locked_set` built by constraint 1 of `_build_model`. -/
def lockedCells (data : SolverData) : List (Nat × Nat × Nat) :=
  data.locked.filterMap (fun la =>
    match resolveLock data la with
    | some cell => if (lockValue data la).isSome then some cell else none
    | none => none)

/-- Hard constraint 1 (locked cells): each resolvable locked assignment
fixes its cell variable. -/
def lockedOk (data : SolverData) (sol : CpSolution) : Bool :=
  data.locked.all (fun la =>
    match resolveLock data la, lockValue data la with
    | some (si, di, bi), some v => sol.x si di bi == v
    | _, _ => true)

/-- Required skills missing from a staff skill set. -/
def missingSkills (req skills : List String) : List String :=
  req.filter (fun r => !(skills.contains r))

/-- Hard constraint 2 (skill prerequisites): a task whose required skills
the staff does not fully hold is forbidden in every slot
(`y[si,di,bi,ti] == 0`, i.e. `x[si,di,bi] ≠ ti`). -/
def skillsOk (data : SolverData) (sol : CpSolution) : Bool :=
  (List.range data.staffs.length).all (fun si =>
    let skl := skillsOf data (data.staffs.getD si default).id
    data.taskTypes.all (fun p =>
      if !(p.2.required_skills.isEmpty) && !((missingSkills p.2.required_skills skl).isEmpty) then
        (List.range data.dates.length).all (fun di =>
          (List.range TIME_BLOCK_ORDER.length).all (fun bi =>
            !(sol.x si di bi == (ttIndexOf data p.1).getD 0)))
      else true))

/-- Hard constraint 3 (transport for visit tasks): a visit task requiring a
car (bicycle) is forbidden for staff who cannot drive (cycle). -/
def transportOk (data : SolverData) (sol : CpSolution) : Bool :=
  (List.range data.staffs.length).all (fun si =>
    let st := data.staffs.getD si default
    data.taskTypes.all (fun p =>
      if p.2.location_type == "visit"
          && ((p.2.required_resources.contains "car" && !st.can_drive)
            || (p.2.required_resources.contains "bicycle" && !st.can_bicycle)) then
        (List.range data.dates.length).all (fun di =>
          (List.range TIME_BLOCK_ORDER.length).all (fun bi =>
            !(sol.x si di bi == (ttIndexOf data p.1).getD 0)))
      else true))

/-- Embeds `late_block_indices` of constraint 4. -/
def lateBlockIndices : List Nat :=
  (["15", "16", "17", "18plus"].filter (fun b => TIME_BLOCK_ORDER.contains b)).filterMap blockIdx

/-- Hard constraint 4 (part-time restriction): part-time staff cells in the
late blocks are forced to 0 — note the code applies this to every cell,
locked cells included. -/
def partTimeOk (data : SolverData) (sol : CpSolution) : Bool :=
  (List.range data.staffs.length).all (fun si =>
    if (data.staffs.getD si default).employment_type == "part_time" then
      (List.range data.dates.length).all (fun di =>
        lateBlockIndices.all (fun bi => sol.x si di bi == 0))
    else true)

/-- Headcount of a task index at a slot: `sum(y[si,di,bi,ti] for si ...)`. -/
def countTask (data : SolverData) (sol : CpSolution) (ti di bi : Nat) : Nat :=
  ((List.range data.staffs.length).map (fun si => if sol.x si di bi == ti then 1 else 0)).sum

/-- Hard constraint 8 (rule-derived hard headcount): each active hard
`headcount` rule with a known task code and a truthy `min_staff` bounds the
headcount from below on weekdays over the task's default blocks. -/
def hardRulesOk (data : SolverData) (sol : CpSolution) : Bool :=
  data.rules.all (fun rule =>
    if rule.template_type == "headcount" && rule.hard_or_soft == "hard" then
      let tc := strOr rule.body.task_type_code rule.body.event_code
      if truthyStr tc && (ttIndexOf data (tc.getD "")).isSome && truthyNat rule.body.min_staff then
        let ti := (ttIndexOf data (tc.getD "")).getD 0
        let minS := rule.body.min_staff.getD 0
        let dbs := ((ttLookup data (tc.getD "")).map (fun t => t.default_blocks)).getD []
        (List.range data.dates.length).all (fun di =>
          if pweekday (data.dates.getD di default) ≥ 5 then true
          else dbs.all (fun blk =>
            match blockIdx blk with
            | some bi => decide (countTask data sol ti di bi ≥ minS)
            | none => true))
      else true
    else true)

/-- Embeds `event.duration_hours or 1`. -/
def durOf (e : EventE) : Int :=
  if e.duration_hours == 0 then 1 else e.duration_hours

/-- Existence of the variable `ev[eid, si, di, bi]`: it was created by the
variable loop for every staff index and every allowed slot of an event with
this id. -/
def evVarExists (data : SolverData) (eid si di bi : Nat) : Bool :=
  si < data.staffs.length
    && data.events.any (fun e2 => e2.id == eid && (expandEventSlots e2 data.dates).contains (di, bi))

/-- 0/1 value contributed by `ev[eid, si, di, bi]` to a linear sum. -/
def evIndicator (data : SolverData) (sol : CpSolution) (eid si di bi : Nat) : Nat :=
  if evVarExists data eid si di bi && sol.evSel eid si di bi then 1 else 0

/-- Embeds `sum(all_ev_vars)` of constraints 9a/9b for one event. -/
def evSum (data : SolverData) (sol : CpSolution) (e : EventE) : Nat :=
  ((List.range data.staffs.length).map (fun si =>
    ((expandEventSlots e data.dates).map (fun p => evIndicator data sol e.id si p.1 p.2)).sum)).sum

/-- Hard constraints 9a/9b: at most one placement per event with a
non-empty allowed-slot list, exactly one when the priority is `required`.
Events whose allowed-slot list is empty are skipped (`if not allowed:
continue`). -/
def eventSumOk (data : SolverData) (sol : CpSolution) : Bool :=
  data.events.all (fun e =>
    if (expandEventSlots e data.dates).isEmpty then true
    else
      decide (evSum data sol e ≤ 1)
        && (if e.priority == "required" then evSum data sol e == 1 else true))

/-- Hard constraint 9c (event skills): staff missing a required event skill
cannot host the event. -/
def eventSkillsOk (data : SolverData) (sol : CpSolution) : Bool :=
  data.events.all (fun e =>
    let allowed := expandEventSlots e data.dates
    if allowed.isEmpty then true
    else if e.required_skills.isEmpty then true
    else (List.range data.staffs.length).all (fun si =>
      if !((missingSkills e.required_skills
          (skillsOf data (data.staffs.getD si default).id)).isEmpty) then
        allowed.all (fun p =>
          if evVarExists data e.id si p.1 p.2 then !(sol.evSel e.id si p.1 p.2) else true)
      else true))

/-- Hard constraint 9d (event/cell exclusion): a selected placement forces
the cell variable to 0 on every in-range, non-locked block of its span. -/
def eventNonOverlapOk (data : SolverData) (sol : CpSolution) : Bool :=
  data.events.all (fun e =>
    let allowed := expandEventSlots e data.dates
    if allowed.isEmpty then true
    else (List.range data.staffs.length).all (fun si =>
      allowed.all (fun p =>
        if evVarExists data e.id si p.1 p.2 && sol.evSel e.id si p.1 p.2 then
          (eventBlocksForDuration p.2 (durOf e)).all (fun sbi =>
            if sbi < TIME_BLOCK_ORDER.length && !((lockedCells data).contains (si, p.1, sbi)) then
              sol.x si p.1 sbi == 0
            else true)
        else true)))

/-- Active resources of one type (`resource_by_type`, grouped from the
active-resource query of the loader). -/
def resourcesOfType (data : SolverData) (rt : String) : List ResourceE :=
  data.resources.filter (fun r => r.is_active && r.rtype == rt)

/-- Embeds `total_capacity = sum(r.capacity for r in resources_of_type)`. -/
def totalCapacity (data : SolverData) (rt : String) : Nat :=
  ((resourcesOfType data rt).map (fun r => r.capacity)).sum

/-- The `competing` sum of constraint 9e for a key `(rt, di, sbi)`: all
placement variables of events requiring `rt` whose span covers that
day/block. -/
def competingSum (data : SolverData) (sol : CpSolution) (rt : String) (di sbi : Nat) : Nat :=
  (data.events.map (fun e2 =>
    if e2.required_resources.contains rt then
      ((List.range data.staffs.length).map (fun si =>
        ((expandEventSlots e2 data.dates).map (fun q =>
          if q.1 == di && (eventBlocksForDuration q.2 (durOf e2)).contains sbi then
            evIndicator data sol e2.id si q.1 q.2
          else 0)).sum)).sum
    else 0)).sum

/-- Hard constraint 9e (resource capacity): for every event requiring a
resource type with at least one active resource, and every day/block its
candidate spans touch, the competing sum is bounded by the total capacity.
When no active resource of the type exists the code emits no constraint at
all (`if not resources_of_type: continue`). -/
def resourceOk (data : SolverData) (sol : CpSolution) : Bool :=
  data.events.all (fun e =>
    e.required_resources.all (fun rt =>
      if (resourcesOfType data rt).isEmpty then true
      else (expandEventSlots e data.dates).all (fun p =>
        (eventBlocksForDuration p.2 (durOf e)).all (fun sbi =>
          decide (competingSum data sol rt p.1 sbi ≤ totalCapacity data rt)))))

/-- Domain constraint of the cell variables: `new_int_var(0, num_tasks)`. -/
def xDomainOk (data : SolverData) (sol : CpSolution) : Bool :=
  (List.range data.staffs.length).all (fun si =>
    (List.range data.dates.length).all (fun di =>
      (List.range TIME_BLOCK_ORDER.length).all (fun bi =>
        decide (sol.x si di bi ≤ numTasks data))))

/-- Satisfaction of every hard constraint emitted by `_build_model`. -/
def modelSatisfied (data : SolverData) (sol : CpSolution) : Bool :=
  xDomainOk data sol && lockedOk data sol && skillsOk data sol && transportOk data sol
    && partTimeOk data sol && hardRulesOk data sol && eventSumOk data sol
    && eventSkillsOk data sol && eventNonOverlapOk data sol && resourceOk data sol

/-!  Solution extraction (`_extract_solution`). -/

/-- One extracted assignment dict. -/
structure ExtractedAssignment where
  staff_id : Nat
  date : PDate
  time_block : String
  task_type_code : Option String
  event_id : Option Nat
  source : String
deriving DecidableEq, Repr

/-- Embeds `idx_to_code.get(val)`: the reverse of the 1-based `tt_index`. -/
def idxToCode (data : SolverData) (v : Nat) : Option String :=
  if v = 0 then none else (ttCodes data).get? (v - 1)

/-- The cell-variable walk of `_extract_solution`: skip locked cells, emit
an assignment for every positive cell value with a known, truthy code. -/
def extractCellRows (data : SolverData) (sol : CpSolution) : List ExtractedAssignment :=
  (List.range data.staffs.length).flatMap (fun si =>
    (List.range data.dates.length).flatMap (fun di =>
      (List.range TIME_BLOCK_ORDER.length).filterMap (fun bi =>
        if (lockedCells data).contains (si, di, bi) then none
        else
          if sol.x si di bi > 0 then
            match idxToCode data (sol.x si di bi) with
            | some code =>
              if !(code == "") then
                some ⟨(data.staffs.getD si default).id, data.dates.getD di default,
                  TIME_BLOCK_ORDER.getD bi "", some code, none, "solver"⟩
              else none
            | none => none
          else none)))

/-- Assignments emitted for one selected event placement: one per in-range
block of the event's span, carrying the event id and its type code. -/
def eventSpanRows (data : SolverData) (e : EventE) (si di bi : Nat) : List ExtractedAssignment :=
  (eventBlocksForDuration bi (durOf e)).filterMap (fun sbi =>
    if sbi < TIME_BLOCK_ORDER.length then
      some ⟨(data.staffs.getD si default).id, data.dates.getD di default,
        TIME_BLOCK_ORDER.getD sbi "", e.type_code, some e.id, "solver"⟩
    else none)

/-- Rows emitted by the event-placement walk of `_extract_solution` for one
event: every selected placement variable contributes its span rows. -/
def evRowsFor (data : SolverData) (sol : CpSolution) (e : EventE) : List ExtractedAssignment :=
  (List.range data.staffs.length).flatMap (fun si =>
    (expandEventSlots e data.dates).flatMap (fun p =>
      if evVarExists data e.id si p.1 p.2 && sol.evSel e.id si p.1 p.2 then
        eventSpanRows data e si p.1 p.2
      else []))

/-- The event-placement walk of `_extract_solution`. -/
def extractEventRows (data : SolverData) (sol : CpSolution) : List ExtractedAssignment :=
  data.events.flatMap (evRowsFor data sol)

/-- Embeds `_extract_solution(solver, x, meta)`. -/
def extractSolution (data : SolverData) (sol : CpSolution) : List ExtractedAssignment :=
  extractCellRows data sol ++ extractEventRows data sol

/-!  Soft constraint 5 (minimum staff per task type).  The CP model creates
a `shortfall` variable per emitted term, constrained by `shortfall ≥
min_staff − count` over the domain `[0, len(staffs)]` and charged 500 per
unit in the minimized objective, so its value in an optimal solution is
`max(0, min_staff − count)`; the term list below records each emitted term
with that value. -/

/-- The min-staff penalty terms the builder emits: one per task type with
`min_staff > 1`, per weekday date, per default block present in the
canonical order, valued `500 * max(0, min_staff − headcount)`. -/
def minStaffPenaltyTerms (data : SolverData) (sol : CpSolution) :
    List ((String × Nat × Nat) × Nat) :=
  data.taskTypes.flatMap (fun p =>
    if p.2.min_staff > 1 then
      (List.range data.dates.length).flatMap (fun di =>
        if pweekday (data.dates.getD di default) ≥ 5 then []
        else p.2.default_blocks.filterMap (fun blk =>
          match blockIdx blk with
          | some bi =>
            some ((p.1, di, bi),
              500 * (p.2.min_staff - countTask data sol ((ttIndexOf data p.1).getD 0) di bi))
          | none => none))
    else [])

/-!  Generic list lemmas used to reason about the linear sums and walks. -/

theorem sum_map_indicator {α : Type} (l : List α) (p : α → Bool) :
    (l.map (fun a => if p a then (1 : Nat) else 0)).sum = l.countP p := by
  induction l with
  | nil => rfl
  | cons a t ih =>
    rw [List.map_cons, List.sum_cons, List.countP_cons, ih]
    by_cases h : p a = true
    · simp [h]
      omega
    · simp [h]

theorem countP_flatMap {α β : Type} (l : List α) (f : α → List β) (p : β → Bool) :
    (l.flatMap f).countP p = (l.map (fun a => (f a).countP p)).sum := by
  induction l with
  | nil => rfl
  | cons a t ih =>
    rw [List.flatMap_cons, List.countP_append, List.map_cons, List.sum_cons, ih]

theorem countP_eq_one_unique {α : Type} {l : List α} {p : α → Bool}
    (h : l.countP p = 1) :
    ∃ a, a ∈ l ∧ p a = true ∧ ∀ b ∈ l, p b = true → b = a := by
  rw [List.countP_eq_length_filter] at h
  obtain ⟨a, ha⟩ := List.length_eq_one.mp h
  have hmem : a ∈ l.filter p := by
    rw [ha]
    exact List.mem_singleton.mpr rfl
  obtain ⟨hal, hap⟩ := List.mem_filter.mp hmem
  refine ⟨a, hal, hap, ?_⟩
  intro b hb hpb
  have : b ∈ l.filter p := List.mem_filter.mpr ⟨hb, hpb⟩
  rw [ha] at this
  exact List.mem_singleton.mp this

theorem flatMap_guard_nil {α β : Type} {l : List α} {p : α → Bool} {f : α → List β}
    (h : ∀ x ∈ l, p x = false) :
    (l.flatMap (fun x => if p x then f x else [])) = [] := by
  rw [List.flatMap_eq_nil_iff]
  intro x hx
  rw [h x hx]
  rfl

theorem flatMap_of_filter_singleton {α β : Type} {l : List α} {p : α → Bool} {f : α → List β}
    {a : α} (h : l.filter p = [a]) :
    (l.flatMap (fun x => if p x then f x else [])) = f a := by
  induction l with
  | nil => simp at h
  | cons x t ih =>
    rw [List.flatMap_cons]
    by_cases hx : p x = true
    · rw [List.filter_cons_of_pos hx] at h
      have hxa : x = a := by
        have := congrArg (fun l => l.headD x) h
        simpa using this
      have ht : t.filter p = [] := by
        have := congrArg List.tail h
        simpa using this
      rw [hx, if_pos rfl, hxa]
      have : (t.flatMap (fun y => if p y then f y else [])) = [] := by
        apply flatMap_guard_nil
        intro y hy
        by_contra hc
        have hpy : p y = true := by
          cases hpy2 : p y
          · exact absurd hpy2 hc
          · rfl
        have : y ∈ t.filter p := List.mem_filter.mpr ⟨hy, hpy⟩
        rw [ht] at this
        simp at this
      rw [this, List.append_nil]
    · have hpx : p x = false := by
        cases hv : p x
        · rfl
        · exact absurd hv hx
      rw [List.filter_cons_of_neg (by simp [hpx])] at h
      rw [hpx]
      simp only [Bool.false_eq_true, if_false, List.nil_append]
      exact ih h

theorem flatMap_single_contributor {α β γ : Type} [DecidableEq γ] {l : List α} {f : α → List β}
    (key : α → γ) {a : α} (ha : a ∈ l) (hnd : (l.map key).Nodup)
    (hother : ∀ b ∈ l, key b ≠ key a → f b = []) :
    l.flatMap f = f a := by
  induction l with
  | nil => simp at ha
  | cons x t ih =>
    rw [List.map_cons, List.nodup_cons] at hnd
    rw [List.flatMap_cons]
    rcases List.mem_cons.mp ha with hax | hat
    · subst hax
      have ht : t.flatMap f = [] := by
        rw [List.flatMap_eq_nil_iff]
        intro b hb
        apply hother b (List.mem_cons_of_mem _ hb)
        intro hk
        exact hnd.1 (hk ▸ List.mem_map_of_mem key hb)
      rw [ht, List.append_nil]
    · have hx : f x = [] := by
        apply hother x (List.mem_cons_self _ _)
        intro hk
        exact hnd.1 (hk.symm ▸ List.mem_map_of_mem key hat)
      rw [hx, List.nil_append]
      exact ih hat (hnd.2) (fun b hb => hother b (List.mem_cons_of_mem _ hb))

/-!  Extraction of individual constraints from `modelSatisfied`. -/

theorem ms_parts (data : SolverData) (sol : CpSolution) (h : modelSatisfied data sol = true) :
    xDomainOk data sol = true ∧ lockedOk data sol = true ∧ skillsOk data sol = true
      ∧ transportOk data sol = true ∧ partTimeOk data sol = true ∧ hardRulesOk data sol = true
      ∧ eventSumOk data sol = true ∧ eventSkillsOk data sol = true
      ∧ eventNonOverlapOk data sol = true ∧ resourceOk data sol = true := by
  unfold modelSatisfied at h
  simp only [Bool.and_eq_true] at h
  tauto

theorem partTimeOk_spec {data : SolverData} {sol : CpSolution}
    (h : partTimeOk data sol = true) :
    ∀ si, si < data.staffs.length → (data.staffs.getD si default).employment_type = "part_time" →
      ∀ di, di < data.dates.length → ∀ bi ∈ lateBlockIndices, sol.x si di bi = 0 := by
  intro si hsi hpt di hdi bi hbi
  unfold partTimeOk at h
  rw [List.all_eq_true] at h
  have h1 := h si (List.mem_range.mpr hsi)
  rw [hpt] at h1
  simp only [beq_self_eq_true, if_true, List.all_eq_true] at h1
  have h2 := h1 di (List.mem_range.mpr hdi)
  have h3 := h2 bi hbi
  exact eq_of_beq h3

theorem lockedOk_spec {data : SolverData} {sol : CpSolution}
    (h : lockedOk data sol = true) :
    ∀ la ∈ data.locked, ∀ si di bi v, resolveLock data la = some (si, di, bi) →
      lockValue data la = some v → sol.x si di bi = v := by
  intro la hla si di bi v hres hval
  unfold lockedOk at h
  rw [List.all_eq_true] at h
  have h1 := h la hla
  rw [hres, hval] at h1
  have h2 : (sol.x si di bi == v) = true := h1
  exact eq_of_beq h2

theorem resourceOk_spec {data : SolverData} {sol : CpSolution}
    (h : resourceOk data sol = true) :
    ∀ e ∈ data.events, ∀ rt ∈ e.required_resources, (resourcesOfType data rt).isEmpty = false →
      ∀ di bi, (di, bi) ∈ expandEventSlots e data.dates →
        ∀ sbi ∈ eventBlocksForDuration bi (durOf e),
          competingSum data sol rt di sbi ≤ totalCapacity data rt := by
  intro e he rt hrt hne di bi hslot sbi hsbi
  unfold resourceOk at h
  rw [List.all_eq_true] at h
  have h1 := h e he
  rw [List.all_eq_true] at h1
  have h2 := h1 rt hrt
  simp only [hne, Bool.false_eq_true, if_false, List.all_eq_true] at h2
  have h3 := h2 (di, bi) hslot
  have h4 := h3 sbi hsbi
  exact of_decide_eq_true h4

/-!  Concrete fixtures shared by several claims. -/

/-- The all-zero solution: every cell unassigned, no event selected. -/
def solZero : CpSolution := ⟨fun _ _ _ => 0, fun _ _ _ _ => false⟩

/-- Part-time staff member (test scenario 2 of the spec). -/
def carol : StaffE := ⟨1, "Carol", "part_time", false, true⟩

/-- Full-time staff member. -/
def alice : StaffE := ⟨2, "Alice", "full_time", true, true⟩

/-- A daycare task requiring two staff on `am`/`pm`. -/
def daycareTT : TaskTypeE := ⟨"daycare", "Daycare", ["am", "pm"], [], [], 2, none, "in_clinic", true⟩

/-- A task with `min_staff = 1`. -/
def careTT : TaskTypeE := ⟨"care", "Care", ["am"], [], [], 1, none, "in_clinic", true⟩

/-- Carol locked into block `17` (index 5) on 2025-05-06 with a known code. -/
def carolLockRow : Row :=
  ⟨1, 1, 1, ⟨2025, 5, 6⟩, "17", some "daycare", none, none, true, "manual", none⟩

/-- Snapshot for C3: Carol (part-time) with the late-block lock above. -/
def dataC3 : SolverData :=
  ⟨[carol], [], [("daycare", daycareTT)], [carolLockRow], [], [], [], [⟨2025, 5, 6⟩]⟩

/-- Snapshot like `dataC3` but without the conflicting lock. -/
def dataC3w : SolverData :=
  ⟨[carol], [], [("daycare", daycareTT)], [], [], [], [], [⟨2025, 5, 6⟩]⟩

/-- C3 (amended): in every solution satisfying the built model, every late
block cell of every part-time staff member is unassigned — the part-time
restriction is applied to all cells, locked cells included. -/
theorem claim_C3_parttime_zero (data : SolverData) (sol : CpSolution)
    (h : modelSatisfied data sol = true) (si : Nat) (hsi : si < data.staffs.length)
    (hpt : (data.staffs.getD si default).employment_type = "part_time")
    (di : Nat) (hdi : di < data.dates.length) (bi : Nat) (hbi : bi ∈ lateBlockIndices) :
    sol.x si di bi = 0 :=
  partTimeOk_spec (ms_parts data sol h).2.2.2.2.1 si hsi hpt di hdi bi hbi

/-- C3 witness: Carol, part-time, in a conflict-free snapshot; her block-15
cell (index 3) is 0 in the all-zero solution, which satisfies the model. -/
theorem claim_C3_parttime_zero_witness : solZero.x 0 0 3 = 0 :=
  claim_C3_parttime_zero dataC3w solZero (by decide) 0 (by decide) (by decide)
    0 (by decide) 3 (by decide)

/-- C3 counterexample: with Carol locked into block `17` with a known task
code, constraint 1 pins `x[0,0,5]` to the task index while constraint 4
pins it to 0, so no solution satisfies the built model at all — the solver
returns `INFEASIBLE` and produces no plan, instead of honoring the lock in
a produced plan as the claim states. -/
theorem claim_C3_counterexample : ¬ ∃ sol : CpSolution, modelSatisfied dataC3 sol = true := by
  rintro ⟨sol, h⟩
  have hl := (ms_parts dataC3 sol h).2.1
  have hp := (ms_parts dataC3 sol h).2.2.2.2.1
  have h1 : sol.x 0 0 5 = 1 :=
    lockedOk_spec hl carolLockRow (by decide) 0 0 5 1 (by decide) (by decide)
  have h2 : sol.x 0 0 5 = 0 :=
    partTimeOk_spec hp 0 (by decide) (by decide) 0 (by decide) 5 (by decide)
  omega

/-!  C6: resource capacity. -/

/-- A visit event requiring a car, fixed to 2025-05-07 start hour 9. -/
def carEvent : EventE :=
  ⟨1, some "visit_home", 1, .fixed ⟨some (some ⟨2025, 5, 7⟩), some 9⟩,
    [], ["car"], "required", "unassigned", some 1⟩

/-- Snapshot for the C6 counterexample: the event requires a car but no
active car resource exists. -/
def dataC6 : SolverData :=
  ⟨[alice], [], [], [], [], [carEvent], [], [⟨2025, 5, 7⟩]⟩

/-- Snapshot with one active car of capacity 1. -/
def dataC6w : SolverData :=
  ⟨[alice], [], [], [], [], [carEvent], [⟨"car", "Car1", 1, true⟩], [⟨2025, 5, 7⟩]⟩

/-- The solution placing event 1 on staff 0 at slot (0, 0). -/
def solPickEv : CpSolution :=
  ⟨fun _ _ _ => 0, fun eid si di bi => eid == 1 && si == 0 && di == 0 && bi == 0⟩

/-- C6 (amended): whenever at least one active resource of a required type
exists, every day/block covered by a candidate span of an event requiring
that type bounds the sum of competing placement variables by the summed
capacity of the active resources of the type. -/
theorem claim_C6_resource_capacity (data : SolverData) (sol : CpSolution)
    (h : modelSatisfied data sol = true) (e : EventE) (he : e ∈ data.events)
    (rt : String) (hrt : rt ∈ e.required_resources)
    (hne : (resourcesOfType data rt).isEmpty = false)
    (di bi : Nat) (hslot : (di, bi) ∈ expandEventSlots e data.dates)
    (sbi : Nat) (hsbi : sbi ∈ eventBlocksForDuration bi (durOf e)) :
    competingSum data sol rt di sbi ≤ totalCapacity data rt :=
  resourceOk_spec (ms_parts data sol h).2.2.2.2.2.2.2.2.2 e he rt hrt hne di bi hslot sbi hsbi

/-- C6 witness: with one active car of capacity 1, the satisfying solution
placing the car event keeps the competing sum within the capacity. -/
theorem claim_C6_resource_capacity_witness :
    competingSum dataC6w solPickEv "car" 0 0 ≤ totalCapacity dataC6w "car" :=
  claim_C6_resource_capacity dataC6w solPickEv (by decide) carEvent (by decide)
    "car" (by decide) (by decide) 0 0 (by decide) 0 (by decide)

/-- C6 counterexample: when no active resource of the required type exists,
the builder emits no constraint at all (`if not resources_of_type:
continue`), so a solution placing one car-requiring event satisfies every
model constraint even though the summed capacity is 0 — the claimed bound
`sum ≤ 0` does not hold. -/
theorem claim_C6_counterexample :
    modelSatisfied dataC6 solPickEv = true
      ∧ "car" ∈ carEvent.required_resources
      ∧ (0, 0) ∈ expandEventSlots carEvent dataC6.dates
      ∧ 0 ∈ eventBlocksForDuration 0 (durOf carEvent)
      ∧ resourcesOfType dataC6 "car" = []
      ∧ totalCapacity dataC6 "car" = 0
      ∧ competingSum dataC6 solPickEv "car" 0 0 = 1 := by decide

/-!  C7: min-staff shortfall objective terms. -/

/-- Snapshot for C7: one task with `min_staff = 1` (no penalty term is ever
emitted for it) and one with `min_staff = 2`, on a Monday. -/
def dataC7 : SolverData :=
  ⟨[alice], [], [("care", careTT), ("daycare", daycareTT)], [], [], [], [], [⟨2025, 5, 5⟩]⟩

/-- C7 (amended): for every task type with `min_staff > 1`, every weekday
date index and every default block present in the canonical order, the
objective contains the min-staff term valued
`500 * max(0, min_staff − headcount)` (natural subtraction). -/
theorem claim_C7_minstaff_term (data : SolverData) (sol : CpSolution)
    (code : String) (tt : TaskTypeE) (di : Nat) (blk : String) (bi : Nat)
    (hmem : (code, tt) ∈ data.taskTypes) (hms : tt.min_staff > 1)
    (hdi : di < data.dates.length)
    (hwk : pweekday (data.dates.getD di default) < 5)
    (hblk : blk ∈ tt.default_blocks) (hbi : blockIdx blk = some bi) :
    ((code, di, bi),
        500 * (tt.min_staff - countTask data sol ((ttIndexOf data code).getD 0) di bi))
      ∈ minStaffPenaltyTerms data sol := by
  unfold minStaffPenaltyTerms
  apply List.mem_flatMap.mpr
  refine ⟨(code, tt), hmem, ?_⟩
  dsimp only
  rw [if_pos hms]
  apply List.mem_flatMap.mpr
  refine ⟨di, List.mem_range.mpr hdi, ?_⟩
  dsimp only
  rw [if_neg (by omega)]
  apply List.mem_filterMap.mpr
  refine ⟨blk, hblk, ?_⟩
  rw [hbi]

/-- C7 witness: the daycare task (`min_staff = 2`) on Monday 2025-05-05 and
block `am` contributes its 500-per-missing-head term. -/
theorem claim_C7_minstaff_term_witness :
    (("daycare", 0, 0),
        500 * (daycareTT.min_staff - countTask dataC7 solZero ((ttIndexOf dataC7 "daycare").getD 0) 0 0))
      ∈ minStaffPenaltyTerms dataC7 solZero :=
  claim_C7_minstaff_term dataC7 solZero "daycare" daycareTT 0 "am" 0
    (by decide) (by decide) (by decide) (by decide) (by decide) (by decide)

/-- C7 counterexample: the active task `care` has `min_staff = 1 ≥ 1`, a
weekday date with default block `am` and headcount 0 — a missing head — yet
the builder (`if tt.min_staff and tt.min_staff > 1`) emits no penalty term
for it: the claim fails for `min_staff = 1`. -/
theorem claim_C7_counterexample :
    (ttLookup dataC7 "care" = some careTT)
      ∧ careTT.min_staff = 1 ∧ careTT.is_active = true
      ∧ "am" ∈ careTT.default_blocks
      ∧ pweekday (dataC7.dates.getD 0 default) = 0
      ∧ countTask dataC7 solZero ((ttIndexOf dataC7 "care").getD 0) 0 0 = 0
      ∧ (minStaffPenaltyTerms dataC7 solZero).all (fun t => !(t.1.1 == "care")) = true := by
  decide

/-!  C1: required events are placed exactly once and fully extracted. -/

theorem flatMap_assoc {α β γ : Type} (l : List α) (f : α → List β) (g : β → List γ) :
    (l.flatMap f).flatMap g = l.flatMap (fun a => (f a).flatMap g) := by
  induction l with
  | nil => rfl
  | cons a t ih => rw [List.flatMap_cons, List.flatMap_cons, List.flatMap_append, ih]

theorem filterMap_ite_eq_map {α β : Type} {l : List α} {p : α → Prop} [DecidablePred p]
    {f : α → β} (h : ∀ a ∈ l, p a) :
    l.filterMap (fun a => if p a then some (f a) else none) = l.map f := by
  induction l with
  | nil => rfl
  | cons a t ih =>
    rw [List.filterMap_cons, List.map_cons]
    rw [if_pos (h a (List.mem_cons_self a t))]
    rw [ih (fun b hb => h b (List.mem_cons_of_mem _ hb))]

/-- The flattened list of `(si, di, bi)` triples a single event's placement
variables range over (`all_ev_vars` order). -/
def evPairs (data : SolverData) (e : EventE) : List (Nat × Nat × Nat) :=
  (List.range data.staffs.length).flatMap (fun si =>
    (expandEventSlots e data.dates).map (fun p => (si, p.1, p.2)))

/-- Selection predicate of one placement variable. -/
def evPick (data : SolverData) (sol : CpSolution) (eid : Nat) (t : Nat × Nat × Nat) : Bool :=
  evVarExists data eid t.1 t.2.1 t.2.2 && sol.evSel eid t.1 t.2.1 t.2.2

theorem evSum_eq_countP (data : SolverData) (sol : CpSolution) (e : EventE) :
    evSum data sol e = (evPairs data e).countP (evPick data sol e.id) := by
  unfold evSum evPairs
  rw [countP_flatMap]
  congr 1
  apply List.map_congr_left
  intro si _
  rw [List.countP_map, ← sum_map_indicator]
  apply congrArg List.sum
  apply List.map_congr_left
  intro p _
  rfl

theorem evPairs_mem {data : SolverData} {e : EventE} {si di bi : Nat} :
    (si, di, bi) ∈ evPairs data e
      ↔ si < data.staffs.length ∧ (di, bi) ∈ expandEventSlots e data.dates := by
  unfold evPairs
  rw [List.mem_flatMap]
  constructor
  · rintro ⟨s2, hs2, hm⟩
    rw [List.mem_map] at hm
    obtain ⟨p, hp, heq⟩ := hm
    cases heq
    exact ⟨List.mem_range.mp hs2, by simpa using hp⟩
  · rintro ⟨hsi, hslot⟩
    exact ⟨si, List.mem_range.mpr hsi, List.mem_map.mpr ⟨(di, bi), hslot, rfl⟩⟩

theorem evVarExists_intro {data : SolverData} {e : EventE} (he : e ∈ data.events)
    {si di bi : Nat} (hsi : si < data.staffs.length)
    (hslot : (di, bi) ∈ expandEventSlots e data.dates) :
    evVarExists data e.id si di bi = true := by
  unfold evVarExists
  simp only [Bool.and_eq_true, decide_eq_true_eq, List.any_eq_true]
  exact ⟨hsi, e, he, by simp [hslot]⟩

theorem eventSumOk_spec {data : SolverData} {sol : CpSolution}
    (h : eventSumOk data sol = true) :
    ∀ e ∈ data.events, (expandEventSlots e data.dates).isEmpty = false →
      evSum data sol e ≤ 1 ∧ (e.priority = "required" → evSum data sol e = 1) := by
  intro e he hne
  unfold eventSumOk at h
  rw [List.all_eq_true] at h
  have h1 := h e he
  simp only [hne, Bool.false_eq_true, if_false, Bool.and_eq_true, decide_eq_true_eq] at h1
  refine ⟨h1.1, ?_⟩
  intro hreq
  have h2 := h1.2
  rw [hreq] at h2
  simp only [beq_self_eq_true, if_true] at h2
  exact eq_of_beq h2

theorem eventBlocksGo_lt (fuel : Nat) :
    ∀ d bi, ∀ b ∈ eventBlocksGo fuel d bi, b < TIME_BLOCK_ORDER.length := by
  induction fuel with
  | zero =>
    intro d bi b hb
    simp [eventBlocksGo] at hb
  | succ fuel ih =>
    intro d bi b hb
    unfold eventBlocksGo at hb
    by_cases hc : (decide (d > 0) && decide (bi < TIME_BLOCK_ORDER.length)) = true
    · rw [if_pos hc] at hb
      rcases List.mem_cons.mp hb with h1 | h2
      · subst h1
        exact of_decide_eq_true ((Bool.and_eq_true _ _).mp hc).2
      · exact ih _ _ b h2
    · rw [if_neg hc] at hb
      simp at hb

theorem span_blocks_lt (s : Nat) (d : Int) :
    ∀ b ∈ eventBlocksForDuration s d, b < TIME_BLOCK_ORDER.length :=
  eventBlocksGo_lt TIME_BLOCK_ORDER.length d s

theorem eventSpanRows_eq_map (data : SolverData) (e : EventE) (si di bi : Nat) :
    eventSpanRows data e si di bi
      = (eventBlocksForDuration bi (durOf e)).map (fun sbi =>
          ⟨(data.staffs.getD si default).id, data.dates.getD di default,
            TIME_BLOCK_ORDER.getD sbi "", e.type_code, some e.id, "solver"⟩) := by
  unfold eventSpanRows
  exact filterMap_ite_eq_map (fun sbi hs => span_blocks_lt bi (durOf e) sbi hs)

theorem extractCellRows_event_id (data : SolverData) (sol : CpSolution) :
    ∀ a ∈ extractCellRows data sol, a.event_id = none := by
  intro a ha
  unfold extractCellRows at ha
  rw [List.mem_flatMap] at ha
  obtain ⟨si, _, ha⟩ := ha
  rw [List.mem_flatMap] at ha
  obtain ⟨di, _, ha⟩ := ha
  rw [List.mem_filterMap] at ha
  obtain ⟨bi, _, hf⟩ := ha
  split at hf
  · exact absurd hf (by simp)
  · split at hf
    · split at hf
      · split at hf
        · cases hf
          rfl
        · exact absurd hf (by simp)
      · exact absurd hf (by simp)
    · exact absurd hf (by simp)

theorem evRowsFor_event_id (data : SolverData) (sol : CpSolution) (e : EventE) :
    ∀ a ∈ evRowsFor data sol e, a.event_id = some e.id := by
  intro a ha
  unfold evRowsFor at ha
  rw [List.mem_flatMap] at ha
  obtain ⟨si, _, ha⟩ := ha
  rw [List.mem_flatMap] at ha
  obtain ⟨p, _, ha⟩ := ha
  split at ha
  · unfold eventSpanRows at ha
    rw [List.mem_filterMap] at ha
    obtain ⟨sbi, _, hf⟩ := ha
    split at hf
    · cases hf
      rfl
    · exact absurd hf (by simp)
  · exact absurd ha (by simp)

theorem evRowsFor_eq_pairs (data : SolverData) (sol : CpSolution) (e : EventE) :
    evRowsFor data sol e
      = (evPairs data e).flatMap (fun t =>
          if evPick data sol e.id t then eventSpanRows data e t.1 t.2.1 t.2.2 else []) := by
  unfold evRowsFor evPairs
  rw [flatMap_assoc]
  apply congrArg
  funext si
  rw [List.flatMap_map]
  rfl

/-- C1 (amended): for a required-priority event bound to the schedule whose
expanded allowed-slot list is non-empty (the builder skips events with an
empty list, so the claim fails for those — see the counterexample), any
solution of the built model selects exactly one placement `(si, di, bi)`,
and the extracted assignments carrying the event's id are exactly one
assignment per block of the event's span from the chosen start. -/
theorem claim_C1_required_event (data : SolverData) (sol : CpSolution)
    (hms : modelSatisfied data sol = true)
    (hnd : (data.events.map (fun e => e.id)).Nodup)
    (e : EventE) (he : e ∈ data.events) (hreq : e.priority = "required")
    (hne : expandEventSlots e data.dates ≠ []) :
    ∃ si di bi, si < data.staffs.length ∧ (di, bi) ∈ expandEventSlots e data.dates
      ∧ sol.evSel e.id si di bi = true
      ∧ (∀ si2 di2 bi2, si2 < data.staffs.length →
          (di2, bi2) ∈ expandEventSlots e data.dates →
          sol.evSel e.id si2 di2 bi2 = true → (si2, di2, bi2) = (si, di, bi))
      ∧ (extractSolution data sol).filter (fun a => a.event_id == some e.id)
          = (eventBlocksForDuration bi (durOf e)).map (fun sbi =>
              ⟨(data.staffs.getD si default).id, data.dates.getD di default,
                TIME_BLOCK_ORDER.getD sbi "", e.type_code, some e.id, "solver"⟩) := by
  have hne2 : (expandEventSlots e data.dates).isEmpty = false := by
    cases hc : expandEventSlots e data.dates with
    | nil => exact absurd hc hne
    | cons a t => rfl
  have hsum : evSum data sol e = 1 :=
    (eventSumOk_spec (ms_parts data sol hms).2.2.2.2.2.2.1 e he hne2).2 hreq
  have hcount : (evPairs data e).countP (evPick data sol e.id) = 1 := by
    rw [← evSum_eq_countP]
    exact hsum
  obtain ⟨t, htmem, htp, huniq⟩ := countP_eq_one_unique hcount
  obtain ⟨si, di, bi⟩ := t
  have hpair := evPairs_mem.mp htmem
  have hsel : sol.evSel e.id si di bi = true := by
    have h2 : (evVarExists data e.id si di bi && sol.evSel e.id si di bi) = true := htp
    exact ((Bool.and_eq_true _ _).mp h2).2
  refine ⟨si, di, bi, hpair.1, hpair.2, hsel, ?_, ?_⟩
  · intro si2 di2 bi2 hs2 hslot2 hsel2
    apply huniq (si2, di2, bi2) (evPairs_mem.mpr ⟨hs2, hslot2⟩)
    have hex := evVarExists_intro he hs2 hslot2
    show (evVarExists data e.id si2 di2 bi2 && sol.evSel e.id si2 di2 bi2) = true
    rw [hex, hsel2]
    rfl
  · rw [extractSolution, List.filter_append]
    have hc1 : (extractCellRows data sol).filter (fun a => a.event_id == some e.id) = [] := by
      rw [List.filter_eq_nil_iff]
      intro a ha
      rw [extractCellRows_event_id data sol a ha]
      simp
    rw [hc1, List.nil_append, extractEventRows, List.filter_flatMap]
    have hsingle : (data.events.flatMap (fun e2 =>
          List.filter (fun a => a.event_id == some e.id) (evRowsFor data sol e2)))
        = List.filter (fun a => a.event_id == some e.id) (evRowsFor data sol e) := by
      apply flatMap_single_contributor (fun e2 => e2.id) he hnd
      intro b hb hkey
      rw [List.filter_eq_nil_iff]
      intro a hab
      rw [evRowsFor_event_id data sol b a hab]
      simp only [beq_iff_eq, Option.some.injEq]
      exact hkey
    rw [hsingle]
    have hself : List.filter (fun a => a.event_id == some e.id) (evRowsFor data sol e)
        = evRowsFor data sol e := by
      rw [List.filter_eq_self]
      intro a ha
      rw [evRowsFor_event_id data sol e a ha]
      simp
    rw [hself, evRowsFor_eq_pairs]
    have hfil : (evPairs data e).filter (evPick data sol e.id) = [(si, di, bi)] := by
      have hlen : ((evPairs data e).filter (evPick data sol e.id)).length = 1 := by
        rw [← List.countP_eq_length_filter]
        exact hcount
      obtain ⟨u, hu⟩ := List.length_eq_one.mp hlen
      have humem : u ∈ (evPairs data e).filter (evPick data sol e.id) := by
        rw [hu]
        exact List.mem_singleton.mpr rfl
      have h3 := List.mem_filter.mp humem
      have h4 := huniq u h3.1 h3.2
      rw [hu, h4]
    rw [flatMap_of_filter_singleton hfil]
    exact eventSpanRows_eq_map data e si di bi

/-- A required event fixed to a date outside the month: its expanded
allowed-slot list is empty. -/
def reqEventNoSlot : EventE :=
  ⟨1, some "interview", 1, .fixed ⟨some (some ⟨2025, 6, 1⟩), some 9⟩,
    [], [], "required", "unassigned", some 1⟩

/-- Snapshot for the C1 counterexample. -/
def dataC1 : SolverData :=
  ⟨[alice], [], [], [], [], [reqEventNoSlot], [], [⟨2025, 5, 7⟩]⟩

/-- A required event fixed to 2025-05-07 hour 9 (slot (0,0)). -/
def reqEvent : EventE :=
  ⟨1, some "interview", 1, .fixed ⟨some (some ⟨2025, 5, 7⟩), some 9⟩,
    [], [], "required", "unassigned", some 1⟩

/-- Snapshot for the C1 witness. -/
def dataC1w : SolverData :=
  ⟨[alice], [], [], [], [], [reqEvent], [], [⟨2025, 5, 7⟩]⟩

/-- C1 counterexample: a required event bound to the schedule whose
expanded allowed-slot list is empty gets no `sum == 1` constraint at all
(`if not allowed: continue`), so the all-zero solution satisfies the model
with zero placements of the event and the extraction carries no assignment
with its event id — refuting the claim for "whatever its expanded
allowed-slot list". -/
theorem claim_C1_counterexample :
    modelSatisfied dataC1 solZero = true
      ∧ reqEventNoSlot ∈ dataC1.events
      ∧ reqEventNoSlot.priority = "required"
      ∧ expandEventSlots reqEventNoSlot dataC1.dates = []
      ∧ evSum dataC1 solZero reqEventNoSlot = 0
      ∧ (extractSolution dataC1 solZero).filter (fun a => a.event_id == some 1) = [] := by
  decide

/-- C1 witness: a required interview event with one allowed slot, placed by
the satisfying solution `solPickEv`; the amended theorem yields the unique
placement and the extracted span assignments. -/
theorem claim_C1_required_event_witness :
    ∃ si di bi, si < dataC1w.staffs.length
      ∧ (di, bi) ∈ expandEventSlots reqEvent dataC1w.dates
      ∧ solPickEv.evSel reqEvent.id si di bi = true
      ∧ (∀ si2 di2 bi2, si2 < dataC1w.staffs.length →
          (di2, bi2) ∈ expandEventSlots reqEvent dataC1w.dates →
          solPickEv.evSel reqEvent.id si2 di2 bi2 = true → (si2, di2, bi2) = (si, di, bi))
      ∧ (extractSolution dataC1w solPickEv).filter (fun a => a.event_id == some reqEvent.id)
          = (eventBlocksForDuration bi (durOf reqEvent)).map (fun sbi =>
              ⟨(dataC1w.staffs.getD si default).id, dataC1w.dates.getD di default,
                TIME_BLOCK_ORDER.getD sbi "", reqEvent.type_code, some reqEvent.id, "solver"⟩) :=
  claim_C1_required_event dataC1w solPickEv (by decide) (by decide) reqEvent (by decide)
    rfl (by decide)

/-!  `apply_solver_result` (claims C2 and C4). -/

/-- Embeds `Event` row as read and written by `apply_solver_result`. -/
structure EventRow where
  id : Nat
  schedule_id : Option Nat
  status : String
deriving DecidableEq, Repr

/-- One solver assignment dict passed to `apply_solver_result`. -/
structure AssignDict where
  staff_id : Nat
  date : PDate
  time_block : String
  task_type_code : Option String
  display_text : Option String
  event_id : Option Nat
deriving DecidableEq, Repr

/-- The key of the `uq_assignment` unique constraint declared on
`schedule_assignments`: `(schedule_id, staff_id, date, time_block)`. -/
def rowKey (r : Row) : Nat × Nat × PDate × String :=
  (r.schedule_id, r.staff_id, r.date, r.time_block)

/-- Database invariant: all `uq_assignment` keys pairwise distinct. -/
def UniqueKeys (db : List Row) : Prop :=
  db.Pairwise (fun a b => rowKey a ≠ rowKey b)

/-- The row built by `ScheduleAssignment(...)` inside `apply_solver_result`:
`source` is always `"solver"`, `is_locked` takes its column default
`False`, `status_color` is not set. -/
def mkSolverRow (rid sid : Nat) (a : AssignDict) : Row :=
  ⟨rid, sid, a.staff_id, a.date, a.time_block, a.task_type_code, a.display_text,
    none, false, "solver", a.event_id⟩

/-- Insertion of one row; flushing a row whose `uq_assignment` key already
exists raises an integrity error, modelled by `.error`. -/
def insertRow (db : List Row) (r : Row) : Except Unit (List Row) :=
  if db.any (fun ex => decide (rowKey ex = rowKey r)) then .error () else .ok (db ++ [r])

/-- Insertion of all new assignment rows in order. -/
def insertAll (db : List Row) (sid : Nat) (asgns : List AssignDict) (nextId : Nat) :
    Except Unit (List Row) :=
  match asgns with
  | [] => .ok db
  | a :: rest =>
    match insertRow db (mkSolverRow nextId sid a) with
    | .error _ => .error ()
    | .ok db2 => insertAll db2 sid rest (nextId + 1)

/-- Embeds `apply_solver_result(db, schedule_id, assignments, clear_unlocked)`:
optionally delete every non-locked assignment of the schedule, insert the
new rows, then synchronize the status of the schedule's pending events
(`assigned` when the event id occurs in the new assignments, `unassigned`
otherwise).  Any failure aborts the unit of work (`.error`, rolled back by
the caller); on success it returns the rows, the events and the count of
inserted assignments. -/
def applySolverResult (db : List Row) (events : List EventRow) (sid : Nat)
    (asgns : List AssignDict) (clearUnlocked : Bool) :
    Except Unit (List Row × List EventRow × Nat) :=
  match insertAll
      (if clearUnlocked then db.filter (fun r => !(r.schedule_id == sid && !r.is_locked)) else db)
      sid asgns 0 with
  | .error _ => .error ()
  | .ok db2 =>
    .ok (db2,
      events.map (fun ev =>
        if ev.schedule_id == some sid
            && (ev.status == "unassigned" || ev.status == "assigned") then
          { ev with status :=
              if (asgns.filterMap (fun a => a.event_id)).contains ev.id then "assigned"
              else "unassigned" }
        else ev),
      asgns.length)

theorem insertAll_unique {sid : Nat} :
    ∀ (asgns : List AssignDict) (db : List Row) (k : Nat) (res : List Row),
      UniqueKeys db → insertAll db sid asgns k = .ok res → UniqueKeys res := by
  intro asgns
  induction asgns with
  | nil =>
    intro db k res hu h
    unfold insertAll at h
    cases h
    exact hu
  | cons a rest ih =>
    intro db k res hu h
    unfold insertAll insertRow at h
    by_cases hdup : (db.any (fun ex => decide (rowKey ex = rowKey (mkSolverRow k sid a)))) = true
    · rw [if_pos hdup] at h
      cases h
    · rw [if_neg hdup] at h
      apply ih (db ++ [mkSolverRow k sid a]) (k + 1) res ?_ h
      rw [UniqueKeys, List.pairwise_append]
      refine ⟨hu, List.pairwise_singleton _ _, ?_⟩
      intro p hp q hq
      rw [List.mem_singleton] at hq
      subst hq
      intro hk
      apply hdup
      rw [List.any_eq_true]
      exact ⟨p, hp, by simp [hk]⟩

theorem insertAll_mono {sid : Nat} :
    ∀ (asgns : List AssignDict) (db : List Row) (k : Nat) (res : List Row),
      insertAll db sid asgns k = .ok res → ∀ r ∈ db, r ∈ res := by
  intro asgns
  induction asgns with
  | nil =>
    intro db k res h r hr
    unfold insertAll at h
    cases h
    exact hr
  | cons a rest ih =>
    intro db k res h r hr
    unfold insertAll insertRow at h
    by_cases hdup : (db.any (fun ex => decide (rowKey ex = rowKey (mkSolverRow k sid a)))) = true
    · rw [if_pos hdup] at h
      cases h
    · rw [if_neg hdup] at h
      exact ih (db ++ [mkSolverRow k sid a]) (k + 1) res h r
        (List.mem_append.mpr (Or.inl hr))

/-- C2: whenever `apply_solver_result` completes on a database state whose
assignment rows satisfy the `uq_assignment` invariant, the resulting
assignment rows still contain no duplicated
`(schedule, staff, date, block)` tuple — for every snapshot, solver
assignment list, prior locked set and both values of `clear_unlocked`. -/
theorem claim_C2_no_duplicate_tuples (db : List Row) (events : List EventRow) (sid : Nat)
    (asgns : List AssignDict) (cu : Bool) (db2 : List Row) (ev2 : List EventRow) (n : Nat)
    (hpre : UniqueKeys db)
    (happly : applySolverResult db events sid asgns cu = .ok (db2, ev2, n)) :
    UniqueKeys db2 := by
  unfold applySolverResult at happly
  cases hins : insertAll
      (if cu then db.filter (fun r => !(r.schedule_id == sid && !r.is_locked)) else db)
      sid asgns 0 with
  | error e =>
    rw [hins] at happly
    cases happly
  | ok dbr =>
    rw [hins] at happly
    simp only [Except.ok.injEq, Prod.mk.injEq] at happly
    obtain ⟨h1, _, _⟩ := happly
    subst h1
    apply insertAll_unique asgns _ 0 dbr ?_ hins
    by_cases hcu : cu
    · rw [if_pos hcu]
      exact List.Pairwise.sublist (List.filter_sublist db) hpre
    · rw [if_neg hcu]
      exact hpre

/-- C4: `apply_solver_result` never deletes or modifies a locked
assignment — every row with `is_locked = true` present before a completed
call is still present, all fields unchanged, after it, for every assignment
list and both values of `clear_unlocked`. -/
theorem claim_C4_locked_preserved (db : List Row) (events : List EventRow) (sid : Nat)
    (asgns : List AssignDict) (cu : Bool) (db2 : List Row) (ev2 : List EventRow) (n : Nat)
    (happly : applySolverResult db events sid asgns cu = .ok (db2, ev2, n)) :
    ∀ r ∈ db, r.is_locked = true → r ∈ db2 := by
  intro r hr hlock
  unfold applySolverResult at happly
  cases hins : insertAll
      (if cu then db.filter (fun r => !(r.schedule_id == sid && !r.is_locked)) else db)
      sid asgns 0 with
  | error e =>
    rw [hins] at happly
    cases happly
  | ok dbr =>
    rw [hins] at happly
    simp only [Except.ok.injEq, Prod.mk.injEq] at happly
    obtain ⟨h1, _, _⟩ := happly
    subst h1
    apply insertAll_mono asgns _ 0 dbr hins r
    by_cases hcu : cu
    · rw [if_pos hcu]
      apply List.mem_filter.mpr
      refine ⟨hr, ?_⟩
      simp [hlock]
    · rw [if_neg hcu]
      exact hr

/-- Database fixture for the C2/C4 witnesses: one locked row. -/
def dbC2 : List Row := [carolLockRow]

/-- Events fixture: one pending event bound to schedule 1. -/
def evListC2 : List EventRow := [⟨1, some 1, "unassigned"⟩]

/-- A solver assignment carrying event 1. -/
def asgnC2 : AssignDict := ⟨2, ⟨2025, 5, 6⟩, "am", some "daycare", none, some 1⟩

/-- C2 witness: applying one solver assignment next to a locked row keeps
the `uq_assignment` keys pairwise distinct. -/
theorem claim_C2_no_duplicate_tuples_witness :
    UniqueKeys [carolLockRow, mkSolverRow 0 1 asgnC2] :=
  claim_C2_no_duplicate_tuples dbC2 evListC2 1 [asgnC2] true
    [carolLockRow, mkSolverRow 0 1 asgnC2] [⟨1, some 1, "assigned"⟩] 1
    (by unfold UniqueKeys; decide) rfl

/-- C4 witness: the locked row survives the same apply call unchanged. -/
theorem claim_C4_locked_preserved_witness :
    carolLockRow ∈ [carolLockRow, mkSolverRow 0 1 asgnC2] :=
  claim_C4_locked_preserved dbC2 evListC2 1 [asgnC2] true
    [carolLockRow, mkSolverRow 0 1 asgnC2] [⟨1, some 1, "assigned"⟩] 1 rfl
    carolLockRow (by decide) rfl

/-!  API layer: schedule status transitions and mutating endpoints (C5). -/

/-- Embeds `Schedule` row as seen by the routers; `solutions_data` is the
`solver_result["solutions_data"]` preset map when present. -/
structure Sched where
  id : Nat
  year_month : String
  status : String
  solutions_data : Option (List (String × List AssignDict))
deriving DecidableEq, Repr

/-- Store state threaded through the endpoints. -/
structure ApiState where
  schedules : List Sched
  rows : List Row
  events : List EventRow
  nextId : Nat
deriving DecidableEq, Repr

/-- HTTP error taxonomy of the routers (404 / 403 / 409 / 400). -/
inductive ApiErr where
  | notFound
  | forbidden
  | conflict
  | badRequest
deriving DecidableEq, Repr

/-- Embeds `AssignmentCreate` schema. -/
structure AssignmentCreate where
  staff_id : Nat
  date : PDate
  time_block : String
  task_type_code : Option String := none
  display_text : Option String := none
  status_color : Option String := none
  is_locked : Bool := false
  source : String := "manual"
deriving DecidableEq, Repr

/-- The `valid_transitions` table of `update_schedule_status`
(`dict.get(status, [])`). -/
def validTransitions (s : String) : List String :=
  if s == "draft" then ["reviewing"]
  else if s == "reviewing" then ["confirmed", "draft"]
  else if s == "confirmed" then []
  else []

/-- Embeds `db.get(Schedule, schedule_id)`. -/
def findSched (st : ApiState) (sid : Nat) : Option Sched :=
  st.schedules.find? (fun s => s.id == sid)

/-- Embeds `PATCH /schedules/{id}/status`. -/
def updateScheduleStatus (st : ApiState) (sid : Nat) (target : String) :
    Except ApiErr Unit × ApiState :=
  match findSched st sid with
  | none => (.error .notFound, st)
  | some s =>
    if !((validTransitions s.status).contains target) then (.error .badRequest, st)
    else (.ok (),
      { st with schedules := st.schedules.map (fun q =>
          if q.id == sid then { q with status := target } else q) })

/-- The `valid_blocks` literal of `upsert_assignment`. -/
def validBlocks : List String := ["am", "lunch", "pm", "15", "16", "17", "18plus"]

/-- Update of an existing row by `AssignmentCreate.model_dump()` (every
schema field is written; `schedule_id` and `event_id` are untouched). -/
def updRowFields (r : Row) (d : AssignmentCreate) : Row :=
  { r with
    staff_id := d.staff_id
    date := d.date
    time_block := d.time_block
    task_type_code := d.task_type_code
    display_text := d.display_text
    status_color := d.status_color
    is_locked := d.is_locked
    source := d.source }

/-- Embeds `PUT /schedules/{id}/assignments`. -/
def upsertAssignment (st : ApiState) (sid : Nat) (d : AssignmentCreate) :
    Except ApiErr Unit × ApiState :=
  match findSched st sid with
  | none => (.error .notFound, st)
  | some s =>
    if s.status == "confirmed" then (.error .forbidden, st)
    else if !(validBlocks.contains d.time_block) then (.error .badRequest, st)
    else
      match st.rows.find? (fun r => r.schedule_id == sid && r.staff_id == d.staff_id
          && decide (r.date = d.date) && r.time_block == d.time_block) with
      | some a =>
        if a.is_locked then (.error .conflict, st)
        else (.ok (), { st with rows := st.rows.map (fun r =>
            if r.rid == a.rid then updRowFields r d else r) })
      | none =>
        (.ok (), { st with
          rows := st.rows ++ [⟨st.nextId, sid, d.staff_id, d.date, d.time_block,
            d.task_type_code, d.display_text, d.status_color, d.is_locked, d.source, none⟩],
          nextId := st.nextId + 1 })

/-- Shared tail of `toggle_lock` after the confirmed-schedule guard. -/
def toggleLockInner (st : ApiState) (sid aid : Nat) : Except ApiErr Unit × ApiState :=
  match st.rows.find? (fun r => r.rid == aid) with
  | none => (.error .notFound, st)
  | some a =>
    if !(a.schedule_id == sid) then (.error .notFound, st)
    else (.ok (), { st with rows := st.rows.map (fun r =>
        if r.rid == aid then { r with is_locked := !r.is_locked } else r) })

/-- Embeds `PATCH /schedules/{id}/assignments/{aid}/lock`. -/
def toggleLock (st : ApiState) (sid aid : Nat) : Except ApiErr Unit × ApiState :=
  match findSched st sid with
  | some s =>
    if s.status == "confirmed" then (.error .forbidden, st)
    else toggleLockInner st sid aid
  | none => toggleLockInner st sid aid

/-- Shared tail of `delete_assignment` after the confirmed-schedule guard. -/
def deleteAssignmentInner (st : ApiState) (sid aid : Nat) : Except ApiErr Unit × ApiState :=
  match st.rows.find? (fun r => r.rid == aid) with
  | none => (.error .notFound, st)
  | some a =>
    if !(a.schedule_id == sid) then (.error .notFound, st)
    else if a.is_locked then (.error .conflict, st)
    else (.ok (), { st with rows := st.rows.filter (fun r => !(r.rid == aid)) })

/-- Embeds `DELETE /schedules/{id}/assignments/{aid}`. -/
def deleteAssignment (st : ApiState) (sid aid : Nat) : Except ApiErr Unit × ApiState :=
  match findSched st sid with
  | some s =>
    if s.status == "confirmed" then (.error .forbidden, st)
    else deleteAssignmentInner st sid aid
  | none => deleteAssignmentInner st sid aid

/-- Result of one CP run, as consumed by the routers (the solver itself is
an external collaborator at this boundary). -/
structure SolveOutcome where
  status : String
  assignments : List AssignDict
deriving DecidableEq, Repr

/-- Embeds `POST /schedules/{id}/solve`.  On `OPTIMAL`/`FEASIBLE` the result is
applied and the stats block replaces `solver_result` (dropping any stored
preset data); solver failure statuses return normally with no writes. -/
def runSolver (st : ApiState) (sid : Nat) (outcome : SolveOutcome) (clearUnlocked : Bool) :
    Except ApiErr Unit × ApiState :=
  match findSched st sid with
  | none => (.error .notFound, st)
  | some s =>
    if s.status == "confirmed" then (.error .forbidden, st)
    else if outcome.status == "OPTIMAL" || outcome.status == "FEASIBLE" then
      match applySolverResult st.rows st.events sid outcome.assignments clearUnlocked with
      | .error _ => (.error .conflict, st)
      | .ok (rows2, ev2, _) =>
        (.ok (), { st with
          rows := rows2
          events := ev2
          schedules := st.schedules.map (fun q =>
            if q.id == sid then { q with solutions_data := none } else q) })
    else (.ok (), st)

/-- Embeds `POST /schedules/{id}/solve/solutions`: stores the preset assignment
sets in `solver_result["solutions_data"]` (empty result list means no
staff; nothing is stored). -/
def runMultiSolver (st : ApiState) (sid : Nat)
    (results : List (String × List AssignDict)) : Except ApiErr Unit × ApiState :=
  match findSched st sid with
  | none => (.error .notFound, st)
  | some s =>
    if s.status == "confirmed" then (.error .forbidden, st)
    else if results.isEmpty then (.ok (), st)
    else (.ok (), { st with schedules := st.schedules.map (fun q =>
        if q.id == sid then { q with solutions_data := some results } else q) })

/-- Embeds `POST /schedules/{id}/solve/solutions/{preset}/apply`. -/
def applySolution (st : ApiState) (sid : Nat) (preset : String) :
    Except ApiErr Unit × ApiState :=
  match findSched st sid with
  | none => (.error .notFound, st)
  | some s =>
    if s.status == "confirmed" then (.error .forbidden, st)
    else if !(["A", "B", "C"].contains preset.toUpper) then (.error .badRequest, st)
    else
      match s.solutions_data with
      | none => (.error .notFound, st)
      | some sd =>
        match sd.find? (fun p => p.1 == preset.toUpper) with
        | none => (.error .notFound, st)
        | some entry =>
          match applySolverResult st.rows st.events sid entry.2 true with
          | .error _ => (.error .conflict, st)
          | .ok (rows2, ev2, _) => (.ok (), { st with rows := rows2, events := ev2 })

/-- C5: once a schedule is `confirmed` it is terminal — every status
transition out of it (including `confirmed → draft`) is rejected, and every
mutating endpoint (assignment upsert, delete, lock toggle, solver run,
multi-solve, apply-preset) fails with `Forbidden`, returning the store
state unchanged. -/
theorem claim_C5_confirmed_terminal (st : ApiState) (sid : Nat) (s : Sched)
    (hfind : findSched st sid = some s) (hconf : s.status = "confirmed") :
    (∀ target, updateScheduleStatus st sid target = (.error .badRequest, st))
      ∧ (∀ d, upsertAssignment st sid d = (.error .forbidden, st))
      ∧ (∀ aid, toggleLock st sid aid = (.error .forbidden, st))
      ∧ (∀ aid, deleteAssignment st sid aid = (.error .forbidden, st))
      ∧ (∀ outcome cu, runSolver st sid outcome cu = (.error .forbidden, st))
      ∧ (∀ results, runMultiSolver st sid results = (.error .forbidden, st))
      ∧ (∀ preset, applySolution st sid preset = (.error .forbidden, st)) := by
  refine ⟨?_, ?_, ?_, ?_, ?_, ?_, ?_⟩
  · intro target
    unfold updateScheduleStatus
    rw [hfind]
    simp [hconf, validTransitions]
  · intro d
    unfold upsertAssignment
    rw [hfind]
    simp [hconf]
  · intro aid
    unfold toggleLock
    rw [hfind]
    simp [hconf]
  · intro aid
    unfold deleteAssignment
    rw [hfind]
    simp [hconf]
  · intro outcome cu
    unfold runSolver
    rw [hfind]
    simp [hconf]
  · intro results
    unfold runMultiSolver
    rw [hfind]
    simp [hconf]
  · intro preset
    unfold applySolution
    rw [hfind]
    simp [hconf]

/-- Fixture: a confirmed schedule with one locked row. -/
def stC5 : ApiState := ⟨[⟨1, "2025-05", "confirmed", none⟩], [carolLockRow], [], 5⟩

/-- C5 witness: on the confirmed schedule, the `confirmed → draft`
transition is rejected and an upsert fails with `Forbidden`, each leaving
the state unchanged. -/
theorem claim_C5_confirmed_terminal_witness :
    updateScheduleStatus stC5 1 "draft" = (.error .badRequest, stC5)
      ∧ upsertAssignment stC5 1 ⟨1, ⟨2025, 5, 6⟩, "am", none, none, none, false, "manual"⟩
          = (.error .forbidden, stC5) :=
  ⟨(claim_C5_confirmed_terminal stC5 1 ⟨1, "2025-05", "confirmed", none⟩ rfl rfl).1 "draft",
    (claim_C5_confirmed_terminal stC5 1 ⟨1, "2025-05", "confirmed", none⟩ rfl rfl).2.1
      ⟨1, ⟨2025, 5, 6⟩, "am", none, none, none, false, "manual"⟩⟩

/-!  Validator (`validation_service.py`): min-staff check (C8) and
recurring-rule evaluation (C10).  The Japanese description / suggestion
strings are presentation-only and omitted from the violation record. -/

/-- A violation record. -/
structure Violation where
  vtype : String
  severity : Nat
  affected_date : Option PDate
  affected_time_block : Option String
  affected_staff : List Nat
  rule_id : Option Nat
  event_id : Option Nat
deriving DecidableEq, Repr

/-- The task types `_check_min_staff` loads:
`min_staff > 1 AND is_active`. -/
def minStaffActive (tts : List TaskTypeE) : List TaskTypeE :=
  tts.filter (fun t => t.min_staff > 1 && t.is_active)

/-- The assignment rows entering the grouped count query:
`task_type_code IN keys`. -/
def minStaffFiltered (tts : List TaskTypeE) (asgns : List Row) : List Row :=
  asgns.filter (fun a =>
    match a.task_type_code with
    | some c => (minStaffActive tts).any (fun t => t.code == c)
    | none => false)

/-- The `(date, time_block, task_type_code)` groups of the count query. -/
def minStaffGroups (tts : List TaskTypeE) (asgns : List Row) :
    List (PDate × String × String) :=
  ((minStaffFiltered tts asgns).map
    (fun a => (a.date, a.time_block, a.task_type_code.getD ""))).dedup

/-- Headcount of one group (`func.count` over the grouped rows). -/
def headcountAt (tts : List TaskTypeE) (asgns : List Row)
    (g : PDate × String × String) : Nat :=
  (minStaffFiltered tts asgns).countP (fun a =>
    decide (a.date = g.1) && a.time_block == g.2.1 && a.task_type_code == some g.2.2)

/-- Whether one group is an understaffed shortfall. -/
def shortfallAt (tts : List TaskTypeE) (asgns : List Row)
    (g : PDate × String × String) : Bool :=
  match (minStaffActive tts).find? (fun t => t.code == g.2.2) with
  | some tt => decide (headcountAt tts asgns g < tt.min_staff)
  | none => false

/-- Embeds `_check_min_staff(db, schedule_id)` over the schedule's rows. -/
def checkMinStaff (tts : List TaskTypeE) (asgns : List Row) : List Violation :=
  (minStaffGroups tts asgns).filterMap (fun g =>
    match (minStaffActive tts).find? (fun t => t.code == g.2.2) with
    | some tt =>
      if headcountAt tts asgns g < tt.min_staff then
        some ⟨"soft", 700, some g.1, some g.2.1, [], none, none⟩
      else none
    | none => none)

theorem length_filterMap_eq {α β : Type} (l : List α) (f : α → Option β) :
    (l.filterMap f).length = (l.filter (fun a => (f a).isSome)).length := by
  induction l with
  | nil => rfl
  | cons a t ih =>
    rw [List.filterMap_cons, List.filter_cons]
    cases hf : f a with
    | none => simp [hf, ih]
    | some b => simp [hf, ih]

/-- C8 (amended): the min-staff check emits, for every
`(date, block, task_code)` group with at least one assignment of an active
`min_staff > 1` task and a headcount below that task's `min_staff`, one
violation with type `soft` and severity 700 at that date/block; every
emitted violation arises from such a group; exactly one violation per
shortfall group is emitted; and the groups are pairwise-distinct triples.
Triples with zero assignments of the code never form a group, so a zero
headcount is never reported. -/
theorem claim_C8_minstaff_check (tts : List TaskTypeE) (asgns : List Row) :
    (∀ v ∈ checkMinStaff tts asgns, v.vtype = "soft" ∧ v.severity = 700
      ∧ ∃ g ∈ minStaffGroups tts asgns, v.affected_date = some g.1
          ∧ v.affected_time_block = some g.2.1
          ∧ 1 ≤ headcountAt tts asgns g ∧ shortfallAt tts asgns g = true)
    ∧ (∀ g ∈ minStaffGroups tts asgns, shortfallAt tts asgns g = true →
        (⟨"soft", 700, some g.1, some g.2.1, [], none, none⟩ : Violation)
          ∈ checkMinStaff tts asgns)
    ∧ (checkMinStaff tts asgns).length
        = ((minStaffGroups tts asgns).filter (shortfallAt tts asgns)).length
    ∧ (minStaffGroups tts asgns).Nodup := by
  refine ⟨?_, ?_, ?_, List.nodup_dedup _⟩
  · intro v hv
    unfold checkMinStaff at hv
    rw [List.mem_filterMap] at hv
    obtain ⟨g, hg, hf⟩ := hv
    cases hfind : (minStaffActive tts).find? (fun t => t.code == g.2.2) with
    | none =>
      rw [hfind] at hf
      cases hf
    | some tt =>
      rw [hfind] at hf
      dsimp only at hf
      by_cases hlt : headcountAt tts asgns g < tt.min_staff
      · rw [if_pos hlt] at hf
        cases hf
        refine ⟨rfl, rfl, g, hg, rfl, rfl, ?_, ?_⟩
        · unfold minStaffGroups at hg
          rw [List.mem_dedup, List.mem_map] at hg
          obtain ⟨a, hafil, hkey⟩ := hg
          have hcode : ∃ c, a.task_type_code = some c := by
            unfold minStaffFiltered at hafil
            rw [List.mem_filter] at hafil
            cases hc : a.task_type_code with
            | none =>
              rw [hc] at hafil
              exact absurd hafil.2 (by simp)
            | some c => exact ⟨c, rfl⟩
          obtain ⟨c, hc⟩ := hcode
          have hpos : 0 < headcountAt tts asgns g := by
            unfold headcountAt
            rw [List.countP_pos]
            refine ⟨a, hafil, ?_⟩
            rw [← hkey]
            simp [hc]
          omega
        · unfold shortfallAt
          rw [hfind]
          simp [hlt]
      · rw [if_neg hlt] at hf
        cases hf
  · intro g hg hshort
    unfold checkMinStaff
    rw [List.mem_filterMap]
    refine ⟨g, hg, ?_⟩
    unfold shortfallAt at hshort
    cases hfind : (minStaffActive tts).find? (fun t => t.code == g.2.2) with
    | none =>
      rw [hfind] at hshort
      dsimp only at hshort
      cases hshort
    | some tt =>
      rw [hfind] at hshort
      dsimp only at hshort ⊢
      rw [if_pos (of_decide_eq_true hshort)]
  · rw [checkMinStaff, length_filterMap_eq]
    congr 1
    apply List.filter_congr
    intro g _
    unfold shortfallAt
    cases hfind : (minStaffActive tts).find? (fun t => t.code == g.2.2) with
    | none => rfl
    | some tt =>
      by_cases hlt : headcountAt tts asgns g < tt.min_staff
      · simp [hlt]
      · simp [hlt]

/-- One daycare assignment on Tuesday 2025-05-06 at `am`. -/
def rowC8 : Row :=
  ⟨3, 1, 2, ⟨2025, 5, 6⟩, "am", some "daycare", none, none, false, "solver", none⟩

/-- C8 witness: with one `daycare` assignment (headcount 1 < 2), the group
is a shortfall and the soft/700 violation is emitted for it. -/
theorem claim_C8_minstaff_check_witness :
    (⟨"soft", 700, some ⟨2025, 5, 6⟩, some "am", [], none, none⟩ : Violation)
      ∈ checkMinStaff [daycareTT] [rowC8] :=
  (claim_C8_minstaff_check [daycareTT] [rowC8]).2.1 (⟨2025, 5, 6⟩, "am", "daycare")
    (by decide) (by decide)

/-- C8 counterexample: the active `daycare` task has `min_staff = 2` and
the schedule has no assignments at all — every `(date, block, daycare)`
triple of the month has headcount 0 < 2 — yet the check emits nothing,
because only triples that already have at least one matching assignment
form a group. -/
theorem claim_C8_counterexample :
    daycareTT.is_active = true ∧ daycareTT.min_staff = 2
      ∧ checkMinStaff [daycareTT] [] = [] := by decide

/-!  C10: recurring-rule evaluation. -/

/-- The count `grouped[(date, tb)]` of `_eval_recurring_rule`: matching-task
assignments at one slot, among assignments passing the weekday and
time-block filters. -/
def countMatching (rule : RuleE) (asgns : List Row) (s : PDate × String) : Nat :=
  asgns.countP (fun a =>
    rule.body.weekdays.contains (pweekday a.date)
      && (rule.body.time_blocks.isEmpty || rule.body.time_blocks.contains a.time_block)
      && decide (a.date = s.1) && a.time_block == s.2
      && a.task_type_code == some (rule.body.task_type_code.getD ""))

/-- Embeds `_eval_recurring_rule(rule, assignments, task_type_map)`: `all_slots`
collects the `(date, block)` of every assignment (of any task) on a
matching weekday and allowed block; each slot whose matching-task count is
below a truthy `min_staff` yields one violation. -/
def evalRecurringRule (rule : RuleE) (asgns : List Row)
    (tmap : List (String × TaskTypeE)) : List Violation :=
  if rule.body.weekdays.isEmpty || !(truthyStr rule.body.task_type_code) then []
  else
    ((asgns.filter (fun a =>
        rule.body.weekdays.contains (pweekday a.date)
          && (rule.body.time_blocks.isEmpty
            || rule.body.time_blocks.contains a.time_block))).map
      (fun a => (a.date, a.time_block))).dedup.filterMap (fun s =>
        if truthyNat rule.body.min_staff
            && decide (countMatching rule asgns s < rule.body.min_staff.getD 0) then
          some ⟨rule.hard_or_soft,
            (if rule.hard_or_soft == "soft" then rule.weight else 1000),
            some s.1, some s.2, [], some rule.rid, none⟩
        else none)

/-- C10: every violation the recurring-rule evaluator emits points at a
slot where at least one assignment of some (any) task type exists, on a
matching weekday and allowed block — a slot with no assignments at all
never produces a violation even when its matching-task headcount (zero) is
below the rule's `min_staff`. -/
theorem claim_C10_recurring_slot_has_assignment (rule : RuleE) (asgns : List Row)
    (tmap : List (String × TaskTypeE)) (v : Violation)
    (hv : v ∈ evalRecurringRule rule asgns tmap) :
    ∃ a ∈ asgns, some a.date = v.affected_date ∧ some a.time_block = v.affected_time_block
      ∧ pweekday a.date ∈ rule.body.weekdays
      ∧ (rule.body.time_blocks = [] ∨ a.time_block ∈ rule.body.time_blocks) := by
  unfold evalRecurringRule at hv
  split at hv
  · exact absurd hv (by simp)
  · rw [List.mem_filterMap] at hv
    obtain ⟨s, hs, hf⟩ := hv
    split at hf
    · cases hf
      rw [List.mem_dedup, List.mem_map] at hs
      obtain ⟨a, hafil, hkey⟩ := hs
      rw [List.mem_filter] at hafil
      have hp := hafil.2
      simp only [Bool.and_eq_true, Bool.or_eq_true, List.isEmpty_iff] at hp
      refine ⟨a, hafil.1, ?_, ?_, ?_, ?_⟩
      · rw [← hkey]
      · rw [← hkey]
      · have := hp.1
        simpa using this
      · rcases hp.2 with h1 | h2
        · exact Or.inl h1
        · exact Or.inr (by simpa using h2)
    · cases hf

/-- Recurring rule: every Tuesday needs two daycare staff. -/
def ruleC10 : RuleE :=
  ⟨7, "recurring", "soft", 300, "",
    { task_type_code := some "daycare", min_staff := some 2, weekdays := [1] }⟩

/-- An `off` assignment on Tuesday 2025-05-06 `am` — no daycare staff at
all, but the slot exists. -/
def rowC10 : Row :=
  ⟨4, 1, 2, ⟨2025, 5, 6⟩, "am", some "off", none, none, false, "manual", none⟩

/-- C10 witness: the violation emitted for the Tuesday `am` slot (daycare
count 0 < 2) indeed points at a slot holding the `off` assignment. -/
theorem claim_C10_recurring_slot_has_assignment_witness :
    ∃ a ∈ [rowC10], some a.date
        = (Violation.mk "soft" 300 (some ⟨2025, 5, 6⟩) (some "am") [] (some 7) none).affected_date
      ∧ some a.time_block
        = (Violation.mk "soft" 300 (some ⟨2025, 5, 6⟩) (some "am") [] (some 7) none).affected_time_block
      ∧ pweekday a.date ∈ ruleC10.body.weekdays
      ∧ (ruleC10.body.time_blocks = [] ∨ a.time_block ∈ ruleC10.body.time_blocks) :=
  claim_C10_recurring_slot_has_assignment ruleC10 [rowC10] []
    ⟨"soft", 300, some ⟨2025, 5, 6⟩, some "am", [], some 7, none⟩ (by decide)
